import Mathlib

/-!
Shallow embedding of the camera streaming system
(src/2025_camera/main_show_ver_2.py, src/2025_camera/main_camera_ver_2.py).

Bytes are modelled as natural numbers below 256, byte strings as
`List Nat`.  Python floats (timestamps, latency samples) are modelled as
rationals; the IEEE-754 codec `struct.pack('>d', _)` / `struct.unpack('>d', _)`
is kept abstract as a function parameter where it appears, since no claim
depends on its bit-level behaviour.
-/

namespace CameraSystem

/-- Big-endian encoding of a natural number on a fixed number of bytes,
modelling `struct.pack('>L', n)` when the width is 4 and
`struct.pack('>B', n)` when the width is 1 (the value taken mod 256^width;
the Python call raises for out-of-range values, which callers rule out). -/
def natToBe : Nat → Nat → List Nat
  | 0, _ => []
  | k + 1, n => natToBe k (n / 256) ++ [n % 256]

/-- Big-endian decoding of a byte string, modelling `struct.unpack('>L', _)`
on 4 bytes (and `struct.unpack('>B', _)` on 1 byte). -/
def beToNat (bs : List Nat) : Nat :=
  bs.foldl (fun a b => a * 256 + b) 0

/-- The wire tag byte for camera frames, `b'c'`. -/
def tagCamera : Nat := 0x63

/-- The wire tag byte for timing pings, `b't'`. -/
def tagTiming : Nat := 0x74

/-- The framing applied by `Camera.capture_and_encode`
(main_camera_ver_2.py line 211): tag `b'c'`, then
`struct.pack('>L', len(frame_data))`, then the payload bytes. -/
def encodeCameraFrame (payload : List Nat) : List Nat :=
  tagCamera :: (natToBe 4 payload.length ++ payload)

/-- The message built by `CameraClient.__timestamp_send`
(main_camera_ver_2.py line 154): `struct.pack('>c', b't') + struct.pack('>d', timestamp)`,
with the 8-byte double codec `packD` kept abstract. -/
def timestampMsg (packD : ℚ → List Nat) (timestamp : ℚ) : List Nat :=
  tagTiming :: packD timestamp

/-! ### The exact-read loop `CameraServer.recv_all` (main_show_ver_2.py 37-55)

One call of `sock.recv` either yields a chunk of bytes (the empty chunk
meaning the peer closed the connection) or raises (`socket.timeout`,
`ConnectionResetError`, or any other receive error).  A run of the socket
is a list of such events; TCP guarantees each chunk is no longer than the
amount requested, which the predicate `chunksFit` captures. -/

/-- One outcome of a `sock.recv` call inside `recv_all`. -/
inductive RecvEvent where
  | chunk (b : List Nat)
  | err
deriving DecidableEq, Repr

/-- The accumulator loop of `recv_all`: while fewer than `size` bytes are
gathered, take the next recv outcome; an empty chunk (peer closed), an
exception, or a socket that never delivers again all return `None`. -/
def recvAllAux (size : Nat) : List RecvEvent → List Nat → Option (List Nat)
  | evs, data =>
    if size ≤ data.length then some data
    else
      match evs with
      | [] => none
      | RecvEvent.err :: _ => none
      | RecvEvent.chunk [] :: _ => none
      | RecvEvent.chunk (b :: bs) :: rest => recvAllAux size rest (data ++ b :: bs)

/-- Python's `recv_all(sock, size)` run against the event list `evs`. -/
def recv_all (evs : List RecvEvent) (size : Nat) : Option (List Nat) :=
  recvAllAux size evs []

/-- TCP well-formedness of an event list for a `recv_all(sock, size)` call:
each delivered chunk is no longer than the number of bytes still requested
at that point (`sock.recv(k)` returns at most `k` bytes). -/
def chunksFit : List RecvEvent → Nat → Bool
  | [], _ => true
  | RecvEvent.err :: _, _ => true
  | RecvEvent.chunk b :: rest, rem =>
      decide (b.length ≤ rem) && chunksFit rest (rem - b.length)

/-- A socket run delivering the bytes of `p` one per recv call. -/
def oneByteChunks (p : List Nat) : List RecvEvent :=
  p.map fun b => RecvEvent.chunk [b]

/-- In-order byte-stream view of `recv_all`: when the socket delivers the
byte stream `s` in order, `recv_all(sock, n)` returns the first `n` bytes
and leaves the rest pending, or fails if fewer than `n` bytes arrive
before the peer closes.  `recv_data` below reads through this view. -/
def recvExact (s : List Nat) (n : Nat) : Option (List Nat × List Nat) :=
  if n ≤ s.length then some (s.take n, s.drop n) else none

/-! ### Server-side shared state (`CameraServer.__init__`, main_show_ver_2.py 15-34)

The mutex-guarded registry: per-address latest camera payload and latest
latency sample (Python dicts, modelled as association lists), the shared
latency history (`deque(maxlen=100)`), the active-client socket list, the
server running flag, and the selection byte broadcast to clients. -/

/-- Lookup in an association list (Python `dict[k]` when present). -/
def lookupKey {α : Type} (m : List (Nat × α)) (k : Nat) : Option α :=
  match m.find? (fun p => p.1 == k) with
  | some p => some p.2
  | none => none

/-- Store under a key, overwriting any previous binding
(Python `dict[k] = v`). -/
def setKey {α : Type} (m : List (Nat × α)) (k : Nat) (v : α) : List (Nat × α) :=
  m.filter (fun p => p.1 ≠ k) ++ [(k, v)]

/-- Delete a key if present (Python `if k in dict: del dict[k]`; total, a
no-op when the key is absent). -/
def eraseKey {α : Type} (m : List (Nat × α)) (k : Nat) : List (Nat × α) :=
  m.filter (fun p => p.1 ≠ k)

/-- Append to a `deque(maxlen=cap)`: the new element goes to the back and
the oldest elements are evicted from the front once the length would
exceed `cap` (main_show_ver_2.py line 19 with `cap = 100`). -/
def dequeAppend (cap : Nat) (xs : List ℚ) (x : ℚ) : List ℚ :=
  let ys := xs ++ [x]
  if cap < ys.length then ys.drop (ys.length - cap) else ys

/-- The mutable server state shared between the accept loop, the per-client
receive/send threads and the display (`CameraServer.__init__`). -/
structure RecvState where
  client_camera_data : List (Nat × List Nat)
  client_latency_time : List (Nat × ℚ)
  latency_history : List ℚ
  active_clients : List Nat
  recv_data_running : Bool
  send_camera_request : Nat
deriving Repr

/-- Effect of the camera branch of `recv_data` (main_show_ver_2.py 82-84):
store the payload in the per-client dict under the peer's address. -/
def putFrame (st : RecvState) (addr : Nat) (payload : List Nat) : RecvState :=
  { st with client_camera_data := setKey st.client_camera_data addr payload }

/-- Effect of the timing branch of `recv_data` (main_show_ver_2.py 96-99):
append the latency sample to the bounded history and store it under the
peer's address. -/
def putLatency (st : RecvState) (addr : Nat) (latency_ms : ℚ) : RecvState :=
  { st with
    latency_history := dequeAppend 100 st.latency_history latency_ms,
    client_latency_time := setKey st.client_latency_time addr latency_ms }

/-- Outcome of one iteration of the `while` body of `recv_data`: either the
loop continues with an updated state and the remaining stream, or it
breaks out (after which the `finally` cleanup runs). -/
inductive StepResult where
  | stepped (st : RecvState) (rest : List Nat)
  | broke (st : RecvState) (rest : List Nat)

/-- One iteration of the inbound loop `CameraServer.recv_data`
(main_show_ver_2.py 62-106), reading from the in-order byte stream `s` at
local time `now`, with the 8-byte double decoder `decodeD` abstract:
read one tag byte (`break` on failure); on `b'c'` read a 4-byte length
then that many payload bytes and store them; on `b't'` read 8 bytes,
compute `latency_ms = (now - timestamp) * 1000` and record it; on any
other tag log a warning and continue from the current position. -/
def recvDataStep (decodeD : List Nat → ℚ) (now : ℚ) (st : RecvState) (addr : Nat)
    (s : List Nat) : StepResult :=
  match recvExact s 1 with
  | none => StepResult.broke st s
  | some (data_type, s1) =>
    if data_type = [tagCamera] then
      match recvExact s1 4 with
      | none => StepResult.broke st s1
      | some (data_length_bytes, s2) =>
        match recvExact s2 (beToNat data_length_bytes) with
        | none => StepResult.broke st s2
        | some (camera_data_bytes, s3) =>
            StepResult.stepped (putFrame st addr camera_data_bytes) s3
    else if data_type = [tagTiming] then
      match recvExact s1 8 with
      | none => StepResult.broke st s1
      | some (timestamp_bytes, s2) =>
          StepResult.stepped
            (putLatency st addr ((now - decodeD timestamp_bytes) * 1000)) s2
    else
      StepResult.stepped st s1

/-- The placeholder `CameraServer.display_thread_running`
(main_show_ver_2.py 179-184): it unconditionally returns `True`. -/
def display_thread_running : Bool := true

/-- The `finally` cleanup of `recv_data` (main_show_ver_2.py 110-125),
run when the inbound loop exits: remove the socket from the active-client
list if present, delete the address key from the camera-data and latency
dicts if present, then — only when the client list is now empty AND the
display thread is not running — clear the server running flag. -/
def recvCleanup (st : RecvState) (sock addr : Nat) : RecvState :=
  let ac := st.active_clients.erase sock
  let running :=
    if ac.isEmpty && !display_thread_running then false else st.recv_data_running
  { st with
    active_clients := ac,
    client_camera_data := eraseKey st.client_camera_data addr,
    client_latency_time := eraseKey st.client_latency_time addr,
    recv_data_running := running }

/-- The registry query `CameraServer.get_latest_latency_data`
(main_show_ver_2.py 164-168): the arithmetic mean of the samples in the
history window, or 0.0 when the window is empty. -/
def get_latest_latency_data (latency_history : List ℚ) : ℚ :=
  if latency_history.isEmpty then 0
  else latency_history.sum / latency_history.length

/-- The selection setter `CameraServer.set_camera_request`
(main_show_ver_2.py 171-177): values from 1 to 9 are packed and stored;
any other value is logged and ignored, the previous byte retained. -/
def set_camera_request (send_camera_request : Nat) (camera_num : Int) : Nat :=
  if 1 ≤ camera_num ∧ camera_num ≤ 9 then camera_num.toNat
  else send_camera_request

/-! ### The accept loop `CameraServer.run` (main_show_ver_2.py 196-224) -/

/-- The hardcoded idle limit `timeout_limit = 60` of `CameraServer.run`
(main_show_ver_2.py line 197), in seconds. -/
def timeout_limit : ℚ := 60

/-- Outcome of one `server_socket.accept()` call: a new connection, the
0.01 s poll timeout elapsing, or any other exception. -/
inductive AcceptEvent where
  | connected (conn addr : Nat)
  | timedOut
  | failed

/-- The state the accept loop works on: the active-client list, the global
running flag, and `start_time` (reset at start and after each accepted
connection). -/
structure AcceptState where
  active_clients : List Nat
  recv_data_running : Bool
  start_time : ℚ
deriving Repr

/-- One iteration of the accept part of `CameraServer.run` at local time
`now`: a new connection is appended to the client list and resets
`start_time`; on a poll timeout with no active clients and more than
`timeout_limit` seconds since `start_time`, the running flag is cleared
and the loop breaks (the listening socket is then closed); any other
accept error also clears the flag and breaks.  The returned Boolean is
true when the loop breaks out. -/
def acceptStep (st : AcceptState) (now : ℚ) (ev : AcceptEvent) : AcceptState × Bool :=
  match ev with
  | AcceptEvent.connected conn _ =>
      ({ st with active_clients := st.active_clients ++ [conn], start_time := now }, false)
  | AcceptEvent.timedOut =>
      if st.active_clients.isEmpty then
        if timeout_limit < now - st.start_time then
          ({ st with recv_data_running := false }, true)
        else (st, false)
      else (st, false)
  | AcceptEvent.failed =>
      ({ st with recv_data_running := false }, true)

/-! ### Client side, `CameraClient` (main_camera_ver_2.py) -/

/-- One local capture device as the client's send loop sees it in one
iteration: its assigned number (`Camera.camera_num`) and the result of
`capture_and_encode()` for this tick — `none` when capture or JPEG
encoding fails, otherwise the framed bytes `encodeCameraFrame data`. -/
structure CameraDev where
  camera_num : Nat
  capture_and_encode : Option (List Nat)
deriving Repr

/-- The client state shared by its two loops: the requested camera number
(guarded by `__recv_data_lock`) and the running flag. -/
structure ClientState where
  requested_camera_num : Nat
  loop_running : Bool
deriving Repr

/-- The camera-selection scan of `CameraClient.send_loop`
(main_camera_ver_2.py 69-73): `target_camera_data` starts as `None`, the
first camera whose number matches is asked to capture and encode, and the
scan stops there. -/
def findCameraData (cams : List CameraDev) (n : Nat) : Option (List Nat) :=
  match cams.find? (fun c => c.camera_num == n) with
  | some c => c.capture_and_encode
  | none => none

/-- One iteration of `CameraClient.send_loop` (main_camera_ver_2.py 62-90)
at local time `now`: read the requested camera number, look up its frame;
if a (truthy, i.e. non-empty) frame exists, send the timestamp message
then the camera frame in that order; otherwise reset the requested number
to the default 1 and skip the cycle, sending nothing.  Returns the new
state and the list of byte strings passed to `sendall`, in order. -/
def send_loop_step (packD : ℚ → List Nat) (cams : List CameraDev) (now : ℚ)
    (st : ClientState) : ClientState × List (List Nat) :=
  match findCameraData cams st.requested_camera_num with
  | some target_camera_data =>
      if target_camera_data = [] then
        ({ st with requested_camera_num := 1 }, [])
      else
        (st, [timestampMsg packD now, target_camera_data])
  | none => ({ st with requested_camera_num := 1 }, [])

/-- One iteration of `CameraClient.receive_loop` (main_camera_ver_2.py
109-122) after a successful 1-byte read: `struct.unpack('>B', _)` yields
the byte value, which is stored as the requested camera number with no
range check. -/
def receive_loop_step (st : ClientState) (received_byte : Nat) : ClientState :=
  { st with requested_camera_num := received_byte }

/-! ### Helper lemmas -/

theorem natToBe_length (k n : Nat) : (natToBe k n).length = k := by
  induction k generalizing n with
  | zero => rfl
  | succ k ih => simp [natToBe, ih]

theorem beToNat_aux (k n a : Nat) :
    List.foldl (fun x b => x * 256 + b) a (natToBe k n) = a * 256 ^ k + n % 256 ^ k := by
  induction k generalizing n a with
  | zero => simp [natToBe, Nat.mod_one]
  | succ k ih =>
      rw [natToBe, List.foldl_append, ih]
      simp only [List.foldl_cons, List.foldl_nil]
      have hpow : (256 : Nat) ^ (k + 1) = 256 * 256 ^ k := by ring
      rw [hpow, Nat.mod_mul]
      ring

theorem beToNat_natToBe (k n : Nat) : beToNat (natToBe k n) = n % 256 ^ k := by
  unfold beToNat
  rw [beToNat_aux]
  simp

theorem recvExact_append (a b : List Nat) : recvExact (a ++ b) a.length = some (a, b) := by
  have h : a.length ≤ (a ++ b).length := by simp
  simp [recvExact, h]

theorem recvExact_cons (x : Nat) (t : List Nat) : recvExact (x :: t) 1 = some ([x], t) := by
  simp [recvExact]

theorem lookupKey_setKey {α : Type} (m : List (Nat × α)) (k : Nat) (v : α) :
    lookupKey (setKey m k v) k = some v := by
  unfold lookupKey setKey
  induction m with
  | nil => simp
  | cons hd t ih =>
      by_cases h : hd.1 = k
      · simpa [h] using ih
      · simpa [h] using ih

theorem lookupKey_eraseKey {α : Type} (m : List (Nat × α)) (k : Nat) :
    lookupKey (eraseKey m k) k = none := by
  unfold lookupKey eraseKey
  induction m with
  | nil => rfl
  | cons hd t ih =>
      by_cases h : hd.1 = k
      · simpa [h] using ih
      · simpa [h] using ih

theorem eraseKey_idem {α : Type} (m : List (Nat × α)) (k : Nat) :
    eraseKey (eraseKey m k) k = eraseKey m k := by
  unfold eraseKey
  induction m with
  | nil => rfl
  | cons hd t ih =>
      by_cases h : hd.1 = k
      · simp [h, ih]
      · simp [h, ih]

/-! ### Sample states used by the concrete instantiations -/

/-- A concrete server state with one connected client (socket 3). -/
def sampleRecvState : RecvState :=
  { client_camera_data := [(0, [1, 2])], client_latency_time := [(0, 5)],
    latency_history := [5], active_clients := [3],
    recv_data_running := true, send_camera_request := 1 }

/-- A concrete double encoder standing in for `struct.pack('>d', _)`. -/
def packD0 : ℚ → List Nat := fun _ => List.replicate 8 0

/-- A concrete double decoder standing in for `struct.unpack('>d', _)`. -/
def decodeD0 : List Nat → ℚ := fun _ => 0

/-- Concrete client cameras: camera 1 captures, camera 2 fails. -/
def sampleCams : List CameraDev :=
  [⟨1, some (encodeCameraFrame [7])⟩, ⟨2, none⟩]

/-- A concrete client state requesting camera 1. -/
def sampleClient1 : ClientState := ⟨1, true⟩

/-- A concrete client state requesting camera 2. -/
def sampleClient2 : ClientState := ⟨2, true⟩

/-! ### Claims -/

/-- C1: for every byte payload P with 0 ≤ |P| ≤ 2^32−1, encoding P as a
camera frame (tag byte `'c'`, then a 4-byte big-endian unsigned length,
then the payload) and decoding that byte stream with the server's inbound
frame decoder yields a camera frame whose stored payload is exactly P. -/
theorem camera_frame_roundtrip (p rest : List Nat) (st : RecvState) (addr : Nat)
    (decodeD : List Nat → ℚ) (now : ℚ) (h : p.length < 2 ^ 32) :
    recvDataStep decodeD now st addr (encodeCameraFrame p ++ rest) =
      StepResult.stepped (putFrame st addr p) rest
    ∧ lookupKey (putFrame st addr p).client_camera_data addr = some p := by
  refine ⟨?_, lookupKey_setKey _ _ _⟩
  have hstream : encodeCameraFrame p ++ rest =
      tagCamera :: (natToBe 4 p.length ++ (p ++ rest)) := by
    simp [encodeCameraFrame]
  have e1 : recvExact (natToBe 4 p.length ++ (p ++ rest)) 4 =
      some (natToBe 4 p.length, p ++ rest) := by
    have := recvExact_append (natToBe 4 p.length) (p ++ rest)
    rwa [natToBe_length] at this
  have hdec : beToNat (natToBe 4 p.length) = p.length := by
    rw [beToNat_natToBe]
    exact Nat.mod_eq_of_lt (by norm_num at h ⊢; omega)
  have e2 : recvExact (p ++ rest) (beToNat (natToBe 4 p.length)) = some (p, rest) := by
    rw [hdec]
    exact recvExact_append p rest
  rw [hstream]
  simp [recvDataStep, recvExact_cons, e1, e2]

/-- Witness for C1 at the concrete payload [10, 20]. -/
theorem camera_frame_roundtrip_witness :
    recvDataStep decodeD0 0 sampleRecvState 5 (encodeCameraFrame [10, 20] ++ [9]) =
      StepResult.stepped (putFrame sampleRecvState 5 [10, 20]) [9]
    ∧ lookupKey (putFrame sampleRecvState 5 [10, 20]).client_camera_data 5 =
        some [10, 20] :=
  camera_frame_roundtrip [10, 20] [9] sampleRecvState 5 decodeD0 0 (by norm_num)

/-- C6: when the inbound loop reads a tag byte that is neither `'c'` nor
`'t'`, it logs a warning and continues reading the next tag from the same
stream position; it does not terminate the session (the loop steps rather
than breaks, so the cleanup does not run) and leaves the whole server
state — registry entries included — unchanged. -/
theorem unknown_tag_continues (decodeD : List Nat → ℚ) (now : ℚ) (st : RecvState)
    (addr t : Nat) (rest : List Nat) (h1 : t ≠ tagCamera) (h2 : t ≠ tagTiming) :
    recvDataStep decodeD now st addr (t :: rest) = StepResult.stepped st rest := by
  simp [recvDataStep, recvExact_cons, h1, h2]

/-- Witness for C6 at the concrete unknown tag 120 (`'x'`). -/
theorem unknown_tag_continues_witness :
    recvDataStep decodeD0 0 sampleRecvState 0 (120 :: [1, 2]) =
      StepResult.stepped sampleRecvState [1, 2] :=
  unknown_tag_continues decodeD0 0 sampleRecvState 0 120 [1, 2] (by decide) (by decide)

theorem recvAllAux_done (size : Nat) (evs : List RecvEvent) (data : List Nat)
    (h : size ≤ data.length) : recvAllAux size evs data = some data := by
  match evs with
  | [] => simp [recvAllAux, h]
  | RecvEvent.err :: rest => simp [recvAllAux, h]
  | RecvEvent.chunk [] :: rest => simp [recvAllAux, h]
  | RecvEvent.chunk (b :: bs) :: rest => simp [recvAllAux, h]

theorem recvAllAux_exact (size : Nat) (evs : List RecvEvent) :
    ∀ data : List Nat, data.length ≤ size →
      chunksFit evs (size - data.length) = true →
      recvAllAux size evs data = none ∨
        ∃ b, recvAllAux size evs data = some b ∧ b.length = size := by
  induction evs with
  | nil =>
      intro data hle _
      by_cases h : size ≤ data.length
      · exact Or.inr ⟨data, by simp [recvAllAux, h], Nat.le_antisymm hle h⟩
      · exact Or.inl (by simp [recvAllAux, h])
  | cons ev rest ih =>
      intro data hle hfit
      by_cases h : size ≤ data.length
      · exact Or.inr ⟨data, recvAllAux_done size (ev :: rest) data h, Nat.le_antisymm hle h⟩
      · match ev with
        | RecvEvent.err => exact Or.inl (by simp [recvAllAux, h])
        | RecvEvent.chunk [] => exact Or.inl (by simp [recvAllAux, h])
        | RecvEvent.chunk (b :: bs) =>
            have hfit1 : (b :: bs).length ≤ size - data.length := by
              simp only [chunksFit, Bool.and_eq_true, decide_eq_true_eq] at hfit
              exact hfit.1
            have hfit2 : chunksFit rest (size - data.length - (b :: bs).length) = true := by
              simp only [chunksFit, Bool.and_eq_true, decide_eq_true_eq] at hfit
              exact hfit.2
            have hle2 : (data ++ b :: bs).length ≤ size := by
              simp only [List.length_append, List.length_cons] at hfit1 ⊢
              omega
            have hfit2' : chunksFit rest (size - (data ++ b :: bs).length) = true := by
              have harith : size - (data ++ b :: bs).length =
                  size - data.length - (b :: bs).length := by
                simp only [List.length_append]
                omega
              rw [harith]
              exact hfit2
            have hstep : recvAllAux size (RecvEvent.chunk (b :: bs) :: rest) data =
                recvAllAux size rest (data ++ b :: bs) := by
              simp [recvAllAux, h]
            rw [hstep]
            exact ih (data ++ b :: bs) hle2 hfit2'

theorem recvAllAux_oneByte :
    ∀ p data : List Nat,
      recvAllAux (data.length + p.length) (oneByteChunks p) data = some (data ++ p) := by
  intro p
  induction p with
  | nil => intro data; simp [recvAllAux, oneByteChunks]
  | cons b tl ih =>
      intro data
      have h : ¬ (data.length + (b :: tl).length ≤ data.length) := by
        simp only [List.length_cons]
        omega
      have hstep : recvAllAux (data.length + (b :: tl).length) (oneByteChunks (b :: tl)) data
          = recvAllAux (data.length + (b :: tl).length) (oneByteChunks tl) (data ++ [b]) := by
        simp [recvAllAux, oneByteChunks, h]
      have harith : data.length + (b :: tl).length = (data ++ [b]).length + tl.length := by
        simp only [List.length_append, List.length_cons, List.length_nil]
        omega
      rw [hstep, harith, ih (data ++ [b])]
      simp

/-- C7: for every n ≥ 0, `recv_all` either returns a byte string of length
exactly n (accumulating whatever chunks recv delivers, provided each is no
longer than the amount requested) or returns the failure signal `None`
when the peer closes, the read times out, or a receive error occurs before
n bytes arrive; it never returns a short non-empty result.  Moreover,
delivery one byte at a time always succeeds with the full payload. -/
theorem recv_all_exact_or_none (evs : List RecvEvent) (n : Nat)
    (hfit : chunksFit evs n = true) :
    (recv_all evs n = none ∨ ∃ b, recv_all evs n = some b ∧ b.length = n)
    ∧ ∀ p : List Nat, recv_all (oneByteChunks p) p.length = some p := by
  constructor
  · have := recvAllAux_exact n evs [] (by simp) (by simpa using hfit)
    exact this
  · intro p
    simpa using recvAllAux_oneByte p []

/-- Witness for C7: a two-chunk delivery of 1 + 2 bytes for a 3-byte read. -/
theorem recv_all_exact_or_none_witness :
    (recv_all [RecvEvent.chunk [1], RecvEvent.chunk [2, 3]] 3 = none ∨
      ∃ b, recv_all [RecvEvent.chunk [1], RecvEvent.chunk [2, 3]] 3 = some b ∧
        b.length = 3)
    ∧ ∀ p : List Nat, recv_all (oneByteChunks p) p.length = some p :=
  recv_all_exact_or_none [RecvEvent.chunk [1], RecvEvent.chunk [2, 3]] 3 (by decide)

/-- C3: for every integer v, setting the selection with v outside [1, 9]
leaves the stored selection value unchanged (only a warning is logged),
while setting it with v in [1, 9] makes the stored selection value equal
v thereafter. -/
theorem selection_clamp (s : Nat) (v : Int) :
    (¬(1 ≤ v ∧ v ≤ 9) → set_camera_request s v = s)
    ∧ (1 ≤ v ∧ v ≤ 9 → (set_camera_request s v : Int) = v) := by
  constructor
  · intro h
    simp [set_camera_request, h]
  · intro h
    simp only [set_camera_request, if_pos h]
    omega

/-- Witness for C3 at the concrete values 0, 10, and 5 over stored byte 7. -/
theorem selection_clamp_witness :
    set_camera_request 7 0 = 7 ∧ set_camera_request 7 10 = 7 ∧
      (set_camera_request 7 5 : Int) = 5 :=
  ⟨(selection_clamp 7 0).1 (by decide), (selection_clamp 7 10).1 (by decide),
    (selection_clamp 7 5).2 (by decide)⟩

/-- C4: the latency history is a FIFO of fixed capacity 100 (appending a
101st sample evicts the oldest while keeping the window at 100, and the
window never grows past 100), and the average-latency query returns the
arithmetic mean of the samples currently in the window — so [10, 20, 30]
gives 20 — and returns 0 when the window is empty. -/
theorem latency_window (xs : List ℚ) (x : ℚ) (hfull : xs.length = 100) :
    dequeAppend 100 xs x = xs.tail ++ [x]
    ∧ (dequeAppend 100 xs x).length = 100
    ∧ (∀ ys : List ℚ, ∀ y : ℚ, ys.length ≤ 100 → (dequeAppend 100 ys y).length ≤ 100)
    ∧ get_latest_latency_data [10, 20, 30] = 20
    ∧ get_latest_latency_data [] = 0
    ∧ ∀ ys : List ℚ, ys ≠ [] → get_latest_latency_data ys = ys.sum / ys.length := by
  have hgt : 100 < (xs ++ [x]).length := by
    simp [hfull]
  have hdrop : dequeAppend 100 xs x = xs.tail ++ [x] := by
    simp only [dequeAppend, if_pos hgt]
    have h1 : (xs ++ [x]).length - 100 = 1 := by
      simp [hfull]
    rw [h1, List.drop_append_of_le_length (by omega), List.drop_one]
  refine ⟨hdrop, ?_, ?_, ?_, rfl, ?_⟩
  · rw [hdrop]
    simp [hfull]
  · intro ys y hle
    unfold dequeAppend
    simp only [List.length_append, List.length_cons, List.length_nil, Nat.zero_add]
    by_cases h : 100 < ys.length + 1
    · simp only [if_pos h, List.length_drop, List.length_append, List.length_cons,
        List.length_nil]
      omega
    · simp only [if_neg h, List.length_append, List.length_cons, List.length_nil]
      omega
  · norm_num [get_latest_latency_data]
  · intro ys hys
    simp [get_latest_latency_data, hys]

/-- Witness for C4 at a full window of 100 zero samples. -/
theorem latency_window_witness :
    dequeAppend 100 (List.replicate 100 0) 1 = (List.replicate 100 0).tail ++ [1]
    ∧ (dequeAppend 100 (List.replicate 100 0) 1).length = 100
    ∧ (∀ ys : List ℚ, ∀ y : ℚ, ys.length ≤ 100 → (dequeAppend 100 ys y).length ≤ 100)
    ∧ get_latest_latency_data [10, 20, 30] = 20
    ∧ get_latest_latency_data [] = 0
    ∧ ∀ ys : List ℚ, ys ≠ [] → get_latest_latency_data ys = ys.sum / ys.length :=
  latency_window (List.replicate 100 0) 1 (by simp)

/-- C5: whenever a session's inbound loop terminates, the cleanup removes
that peer's socket from the active-client list and deletes that peer's
address key from both the latest-frame map and the latest-latency map,
and this cleanup is idempotent — running it again on the already-cleaned
state changes nothing. -/
theorem cleanup_removes_and_idempotent (st : RecvState) (sock addr : Nat)
    (hnd : st.active_clients.Nodup) :
    sock ∉ (recvCleanup st sock addr).active_clients
    ∧ lookupKey (recvCleanup st sock addr).client_camera_data addr = none
    ∧ lookupKey (recvCleanup st sock addr).client_latency_time addr = none
    ∧ recvCleanup (recvCleanup st sock addr) sock addr = recvCleanup st sock addr := by
  refine ⟨hnd.not_mem_erase, lookupKey_eraseKey _ _, lookupKey_eraseKey _ _, ?_⟩
  have hmem : sock ∉ st.active_clients.erase sock := hnd.not_mem_erase
  simp [recvCleanup, display_thread_running, eraseKey_idem,
    List.erase_of_not_mem hmem]

/-- Witness for C5 at the concrete connected state. -/
theorem cleanup_removes_and_idempotent_witness :
    3 ∉ (recvCleanup sampleRecvState 3 0).active_clients
    ∧ lookupKey (recvCleanup sampleRecvState 3 0).client_camera_data 0 = none
    ∧ lookupKey (recvCleanup sampleRecvState 3 0).client_latency_time 0 = none
    ∧ recvCleanup (recvCleanup sampleRecvState 3 0) 3 0 = recvCleanup sampleRecvState 3 0 :=
  cleanup_removes_and_idempotent sampleRecvState 3 0 (by simp [sampleRecvState])

/-- C2 (code bug): the claim says that when cleanup empties the active-peer
set the server clears its running flag and shuts down, and the code's own
log message inside that branch says the same — but the branch is guarded
by `not self.display_thread_running()` while `display_thread_running`
always returns `True`, so the branch is unreachable: after the last
client's cleanup the active-client list is empty yet the running flag is
still `true`. -/
theorem all_peers_left_no_shutdown :
    (recvCleanup sampleRecvState 3 0).active_clients = []
    ∧ sampleRecvState.active_clients ≠ []
    ∧ (recvCleanup sampleRecvState 3 0).recv_data_running = true
    ∧ display_thread_running = true := by
  refine ⟨rfl, by decide, ?_, rfl⟩
  simp [recvCleanup, sampleRecvState, display_thread_running]

/-- C8: in every iteration of the client's outbound loop, if no frame is
available for the currently requested source index the requested index is
reset to the default 1 and the cycle is skipped with nothing sent on the
socket; otherwise the client sends a timing ping carrying the current
time immediately followed by the camera frame, in that order, on the same
socket. -/
theorem send_loop_behaviour (packD : ℚ → List Nat) (cams : List CameraDev)
    (now : ℚ) (st : ClientState) :
    (findCameraData cams st.requested_camera_num = none →
      send_loop_step packD cams now st = ({ st with requested_camera_num := 1 }, []))
    ∧ (∀ d, findCameraData cams st.requested_camera_num = some d → d ≠ [] →
      send_loop_step packD cams now st = (st, [timestampMsg packD now, d])) := by
  constructor
  · intro h
    simp [send_loop_step, h]
  · intro d h hne
    simp [send_loop_step, h, hne]

/-- Witness for C8: camera 2 yields no frame and resets the index; camera 1
yields a frame, sent right after the timing ping. -/
theorem send_loop_behaviour_witness :
    send_loop_step packD0 sampleCams 0 sampleClient2 =
      ({ sampleClient2 with requested_camera_num := 1 }, [])
    ∧ send_loop_step packD0 sampleCams 0 sampleClient1 =
      (sampleClient1, [timestampMsg packD0 0, encodeCameraFrame [7]]) :=
  ⟨(send_loop_behaviour packD0 sampleCams 0 sampleClient2).1 (by decide),
    (send_loop_behaviour packD0 sampleCams 0 sampleClient1).2
      (encodeCameraFrame [7]) (by decide) (by decide)⟩

/-- C9: if the accept poll times out while the active-peer set is empty and
more than the 60-second idle limit has passed since the acceptor started
(start_time, which every accepted connection resets to the current time),
the accept loop clears the running flag and breaks out, closing the
listening socket and signalling shutdown. -/
theorem idle_timeout_shutdown (st : AcceptState) (now : ℚ)
    (hempty : st.active_clients = []) (hlate : timeout_limit < now - st.start_time) :
    acceptStep st now AcceptEvent.timedOut = ({ st with recv_data_running := false }, true)
    ∧ ∀ c a : Nat, (acceptStep st now (AcceptEvent.connected c a)).1.start_time = now := by
  constructor
  · simp [acceptStep, hempty, hlate]
  · intro c a
    rfl

/-- Witness for C9: an empty acceptor started at time 0, polled at time 61. -/
theorem idle_timeout_shutdown_witness :
    acceptStep ⟨[], true, 0⟩ 61 AcceptEvent.timedOut =
      ({ (⟨[], true, 0⟩ : AcceptState) with recv_data_running := false }, true)
    ∧ ∀ c a : Nat,
        (acceptStep ⟨[], true, 0⟩ 61 (AcceptEvent.connected c a)).1.start_time = 61 :=
  idle_timeout_shutdown ⟨[], true, 0⟩ 61 rfl (by norm_num [timeout_limit])

/-- C10: the client's inbound loop stores any received byte value in 0-255
as the requested source index without validating the [1, 9] range; the
out-of-range index is corrected only later, when the outbound loop finds
no camera with that number and resets the index to 1 — while the server's
setter is the place that rejects values outside [1, 9]. -/
theorem client_accepts_any_byte (st : ClientState) (b : Nat) (_hb : b < 256)
    (packD : ℚ → List Nat) (cams : List CameraDev) (now : ℚ) :
    (receive_loop_step st b).requested_camera_num = b
    ∧ (findCameraData cams b = none →
        (send_loop_step packD cams now (receive_loop_step st b)).1.requested_camera_num = 1)
    ∧ ∀ s : Nat, ∀ v : Int, ¬(1 ≤ v ∧ v ≤ 9) → set_camera_request s v = s := by
  refine ⟨rfl, ?_, ?_⟩
  · intro h
    simp [send_loop_step, receive_loop_step, h]
  · intro s v h
    simp [set_camera_request, h]

/-- Witness for C10 at the out-of-range byte 200, which no camera matches. -/
theorem client_accepts_any_byte_witness :
    (receive_loop_step sampleClient1 200).requested_camera_num = 200
    ∧ (send_loop_step packD0 sampleCams 0
        (receive_loop_step sampleClient1 200)).1.requested_camera_num = 1
    ∧ set_camera_request 7 200 = 7 :=
  have h := client_accepts_any_byte sampleClient1 200 (by decide) packD0 sampleCams 0
  ⟨h.1, h.2.1 (by decide), h.2.2 7 200 (by decide)⟩

end CameraSystem
